import Mathlib

/-!
Shallow embedding of the core rendering pipeline of
scripts/generate_app_icon.py (class IconGenerator): the rigid transform,
the normalizer, the shading model and the projection renderer.

Rational numbers stand in for the Python floats in the exact-arithmetic
stages (bounds, normalization, culling, depth sort, projection); real
numbers are used where the source computes square roots or trigonometric
functions (lighting, rotations).
-/

namespace TopoGen

/-- A 3D point with rational coordinates, modelling a floating-point vertex. -/
structure Vec3 where
  x : ℚ
  y : ℚ
  z : ℚ
deriving DecidableEq

/-- Componentwise difference of two vectors. -/
def Vec3.sub (a b : Vec3) : Vec3 :=
  ⟨a.x - b.x, a.y - b.y, a.z - b.z⟩

/-- Cross product, as np.cross computes it for the face normal. -/
def Vec3.cross (a b : Vec3) : Vec3 :=
  ⟨a.y * b.z - a.z * b.y, a.z * b.x - a.x * b.z, a.x * b.y - a.y * b.x⟩

/-- A triangle mesh: a vertex list plus faces given as index triples into it. -/
structure Mesh where
  vertices : List Vec3
  faces : List (ℕ × ℕ × ℕ)
deriving DecidableEq

/-- A scene: the list self.meshes of (mesh, layer number) pairs. -/
abbrev Scene := List (Mesh × ℤ)

/-- Mean Z coordinate of the vertices of a mesh: np.mean(mesh.vertices[:, 2]). -/
def meanZ (m : Mesh) : ℚ :=
  ((m.vertices.map Vec3.z).sum) / (m.vertices.length : ℚ)

/-- Comparison used by the sort in generate_svg: key is the mean vertex Z. -/
def depthLE (a b : Mesh × ℤ) : Bool :=
  decide (meanZ a.1 ≤ meanZ b.1)

/-- The stable sort sorted(self.meshes, key=mean vertex Z) in generate_svg. -/
def sortedMeshes (s : Scene) : Scene :=
  s.mergeSort depthLE

/-- Vertex lookup; out-of-range indices give a zero default (the source would raise). -/
def vertexAt (m : Mesh) (i : ℕ) : Vec3 :=
  m.vertices.getD i ⟨0, 0, 0⟩

/-- Face normal: the cross product of (v1 - v0) and (v2 - v0), un-normalized. -/
def faceNormal (m : Mesh) (f : ℕ × ℕ × ℕ) : Vec3 :=
  Vec3.cross ((vertexAt m f.2.1).sub (vertexAt m f.1))
             ((vertexAt m f.2.2).sub (vertexAt m f.1))

/-- A 3D vector with real coordinates, used by the lighting and rotation stages. -/
structure Vec3R where
  x : ℝ
  y : ℝ
  z : ℝ

/-- Dot product of real vectors. -/
def dot3 (a b : Vec3R) : ℝ :=
  a.x * b.x + a.y * b.y + a.z * b.z

/-- Euclidean norm, np.linalg.norm. -/
noncomputable def norm3 (v : Vec3R) : ℝ :=
  Real.sqrt (v.x ^ 2 + v.y ^ 2 + v.z ^ 2)

/-- The 1e-10 guard added to the denominators in compute_lighting. -/
noncomputable def lightingEps : ℝ := 1 / 10 ^ 10

/-- Componentwise division of a vector by a scalar. -/
noncomputable def Vec3R.divC (v : Vec3R) (d : ℝ) : Vec3R :=
  ⟨v.x / d, v.y / d, v.z / d⟩

/-- compute_lighting: normalize both vectors with the epsilon guard, take the
dot product, clamp below at 0, and apply the 0.7 diffuse and 0.3 ambient terms. -/
noncomputable def compute_lighting (normal light_dir : Vec3R) : ℝ :=
  let n := normal.divC (norm3 normal + lightingEps)
  let l := light_dir.divC (norm3 light_dir + lightingEps)
  max 0 (dot3 n l) * (7 / 10) + 3 / 10

/-- Python int(): truncation of a rational toward zero. -/
def ratTrunc (q : ℚ) : ℤ :=
  if 0 ≤ q then ⌊q⌋ else ⌈q⌉

/-- Truncation of a real toward zero, as astype(int) does. -/
noncomputable def realTrunc (x : ℝ) : ℤ :=
  if 0 ≤ x then ⌊x⌋ else ⌈x⌉

/-- np.clip(n, 0, 255) on an integer channel. -/
def clip255 (n : ℤ) : ℤ :=
  min (max n 0) 255

/-- Base color of a layer: the blue-to-white gradient with reference span 11. -/
def base_color (layer : ℤ) : ℤ × ℤ × ℤ :=
  let r : ℚ := (layer : ℚ) / 11
  (ratTrunc (255 * (2 / 10 + 8 / 10 * r)),
   ratTrunc (255 * (4 / 10 + 6 / 10 * r)),
   ratTrunc (255 * (6 / 10 + 4 / 10 * r)))

/-- Per-face fill color: base color scaled by the intensity, truncated, clipped. -/
noncomputable def face_color (layer : ℤ) (intensity : ℝ) : ℤ × ℤ × ℤ :=
  let b := base_color layer
  (clip255 (realTrunc ((b.1 : ℝ) * intensity)),
   clip255 (realTrunc ((b.2.1 : ℝ) * intensity)),
   clip255 (realTrunc ((b.2.2 : ℝ) * intensity)))

/-- Output unit of the renderer: projected 2D points plus an RGB fill color. -/
structure Polygon2D where
  points : List (ℚ × ℚ)
  fill : ℤ × ℤ × ℤ

/-- The fixed light direction (1.0, 0.0, 0.3) of generate_svg. -/
noncomputable def light_dir : Vec3R := ⟨1, 0, 3 / 10⟩

/-- Interpret a rational vector as a real vector. -/
noncomputable def Vec3.toR (v : Vec3) : Vec3R :=
  ⟨(v.x : ℝ), (v.y : ℝ), (v.z : ℝ)⟩

/-- Render one face: cull when the normal Z component is negative, otherwise
project orthographically (dropping Z, flipping Y) and shade. -/
noncomputable def renderFace (icon_size : ℚ) (layer : ℤ) (m : Mesh)
    (f : ℕ × ℕ × ℕ) : Option Polygon2D :=
  let v0 := vertexAt m f.1
  let v1 := vertexAt m f.2.1
  let v2 := vertexAt m f.2.2
  let normal := faceNormal m f
  if normal.z < 0 then none
  else
    some ⟨[(v0.x, icon_size - v0.y), (v1.x, icon_size - v1.y), (v2.x, icon_size - v2.y)],
          face_color layer (compute_lighting normal.toR light_dir)⟩

/-- Polygons emitted for one mesh, faces kept in their original order. -/
noncomputable def renderMesh (icon_size : ℚ) (ml : Mesh × ℤ) : List Polygon2D :=
  ml.1.faces.filterMap (renderFace icon_size ml.2 ml.1)

/-- The polygon sequence emitted by generate_svg: meshes sorted by mean
vertex Z ascending, then faces of each mesh in sequence order. -/
noncomputable def generate_svg (icon_size : ℚ) (s : Scene) : List Polygon2D :=
  (sortedMeshes s).flatMap (renderMesh icon_size)

/-- All vertices of the scene, concatenated mesh by mesh. -/
def sceneVertices (s : Scene) : List Vec3 :=
  s.flatMap (fun ml => ml.1.vertices)

/-- Minimum of a list of rationals, np.min; the empty case is junk (numpy raises). -/
def listMin : List ℚ → ℚ
  | [] => 0
  | q :: qs => qs.foldl min q

/-- Maximum of a list of rationals, np.max; the empty case is junk (numpy raises). -/
def listMax : List ℚ → ℚ
  | [] => 0
  | q :: qs => qs.foldl max q

/-- compute_bounds: the bounding box over the vertices of all meshes, with the
special case (zeros, ones) when the mesh list is empty. -/
def compute_bounds (s : Scene) : Vec3 × Vec3 :=
  if s.isEmpty then (⟨0, 0, 0⟩, ⟨1, 1, 1⟩)
  else
    let vs := sceneVertices s
    (⟨listMin (vs.map Vec3.x), listMin (vs.map Vec3.y), listMin (vs.map Vec3.z)⟩,
     ⟨listMax (vs.map Vec3.x), listMax (vs.map Vec3.y), listMax (vs.map Vec3.z)⟩)

/-- Planar extent np.max(size[:2]): the larger of the X and Y extents. -/
def planarExtent (s : Scene) : ℚ :=
  let b := compute_bounds s
  max (b.2.x - b.1.x) (b.2.y - b.1.y)

/-- The scale (icon_size * 0.8) / max_size computed in normalize_meshes. -/
def scaleFactor (icon_size : ℚ) (s : Scene) : ℚ :=
  icon_size * (8 / 10) / planarExtent s

/-- normalize_meshes: subtract the scene center, scale, and move X and Y to the
canvas center; Z stays scaled and centered at the origin. -/
def normalize_meshes (icon_size : ℚ) (s : Scene) : Scene :=
  let b := compute_bounds s
  let cx := (b.1.x + b.2.x) / 2
  let cy := (b.1.y + b.2.y) / 2
  let cz := (b.1.z + b.2.z) / 2
  let sc := scaleFactor icon_size s
  s.map fun ml =>
    ({ vertices := ml.1.vertices.map fun v =>
         ⟨(v.x - cx) * sc + icon_size / 2, (v.y - cy) * sc + icon_size / 2, (v.z - cz) * sc⟩,
       faces := ml.1.faces }, ml.2)

/-- A 3x3 real matrix given by its rows. -/
structure Mat3 where
  r0 : Vec3R
  r1 : Vec3R
  r2 : Vec3R

/-- First column of a matrix. -/
def Mat3.c0 (m : Mat3) : Vec3R := ⟨m.r0.x, m.r1.x, m.r2.x⟩

/-- Second column of a matrix. -/
def Mat3.c1 (m : Mat3) : Vec3R := ⟨m.r0.y, m.r1.y, m.r2.y⟩

/-- Third column of a matrix. -/
def Mat3.c2 (m : Mat3) : Vec3R := ⟨m.r0.z, m.r1.z, m.r2.z⟩

/-- Matrix-vector product. -/
def mulVec (m : Mat3) (v : Vec3R) : Vec3R :=
  ⟨dot3 m.r0 v, dot3 m.r1 v, dot3 m.r2 v⟩

/-- Matrix product. -/
def mulMat (m n : Mat3) : Mat3 :=
  ⟨⟨dot3 m.r0 n.c0, dot3 m.r0 n.c1, dot3 m.r0 n.c2⟩,
   ⟨dot3 m.r1 n.c0, dot3 m.r1 n.c1, dot3 m.r1 n.c2⟩,
   ⟨dot3 m.r2 n.c0, dot3 m.r2 n.c1, dot3 m.r2 n.c2⟩⟩

/-- Degrees to radians, math.radians. -/
noncomputable def radians (deg : ℝ) : ℝ :=
  deg * Real.pi / 180

/-- trimesh rotation matrix about the X axis. -/
noncomputable def rotX (t : ℝ) : Mat3 :=
  ⟨⟨1, 0, 0⟩, ⟨0, Real.cos t, -Real.sin t⟩, ⟨0, Real.sin t, Real.cos t⟩⟩

/-- trimesh rotation matrix about the Y axis. -/
noncomputable def rotY (t : ℝ) : Mat3 :=
  ⟨⟨Real.cos t, 0, Real.sin t⟩, ⟨0, 1, 0⟩, ⟨-Real.sin t, 0, Real.cos t⟩⟩

/-- The matrix concatenate_matrices(rx, ry) = rx @ ry built in transform_meshes. -/
noncomputable def combinedRot (tilt_forward tilt_left : ℝ) : Mat3 :=
  mulMat (rotX (radians tilt_forward)) (rotY (radians tilt_left))

/-- A scene with real coordinates, as the transform stage sees it. -/
abbrev SceneR := List (List Vec3R × ℤ)

/-- transform_meshes: apply the combined rotation to every vertex of every mesh. -/
noncomputable def transform_meshes (tilt_forward tilt_left : ℝ) (s : SceneR) : SceneR :=
  s.map fun ml => (ml.1.map (mulVec (combinedRot tilt_forward tilt_left)), ml.2)

/-- Number of polygons emitted before the block of the k-th sorted mesh. -/
noncomputable def blockStart (icon_size : ℚ) (s : Scene) (k : ℕ) : ℕ :=
  (((sortedMeshes s).take k).flatMap (renderMesh icon_size)).length

/-- Index-tagged copy of the depth sort, used to state sort stability. -/
def sortedTagged (s : Scene) : List (ℕ × (Mesh × ℤ)) :=
  s.enum.mergeSort fun a b => depthLE a.2 b.2

/-- The per-face color formula as the spec words it, with the clamp written
as a lower bound of 0 around an upper bound of 255 on the truncated product. -/
noncomputable def specFaceColor (layer : ℤ) (intensity : ℝ) : ℤ × ℤ × ℤ :=
  let r : ℚ := (layer : ℚ) / 11
  let cR : ℤ := ratTrunc (255 * (2 / 10 + 8 / 10 * r))
  let cG : ℤ := ratTrunc (255 * (4 / 10 + 6 / 10 * r))
  let cB : ℤ := ratTrunc (255 * (6 / 10 + 4 / 10 * r))
  (max 0 (min 255 (realTrunc ((cR : ℝ) * intensity))),
   max 0 (min 255 (realTrunc ((cG : ℝ) * intensity))),
   max 0 (min 255 (realTrunc ((cB : ℝ) * intensity))))

/-- The depth comparison is transitive. -/
theorem depthLE_trans (a b c : Mesh × ℤ) (hab : depthLE a b) (hbc : depthLE b c) :
    depthLE a c := by
  simp only [depthLE, decide_eq_true_eq] at hab hbc ⊢
  exact le_trans hab hbc

/-- The depth comparison is total. -/
theorem depthLE_total (a b : Mesh × ℤ) : depthLE a b || depthLE b a := by
  simp only [depthLE, Bool.or_eq_true, decide_eq_true_eq]
  exact le_total _ _

/-- A face with negative normal Z renders to nothing. -/
theorem renderFace_of_neg (icon_size : ℚ) (layer : ℤ) (m : Mesh) (f : ℕ × ℕ × ℕ)
    (h : (faceNormal m f).z < 0) : renderFace icon_size layer m f = none := by
  unfold renderFace
  simp [h]

/-- C9: under the precondition of strictly positive planar extent, the scale
division in normalize_meshes is well defined: the denominator is nonzero and
the computed scale genuinely inverts the extent onto icon_size * 0.8. -/
theorem c9_scale_well_defined (s : Scene) (icon_size : ℚ)
    (h : 0 < planarExtent s) :
    planarExtent s ≠ 0 ∧
    scaleFactor icon_size s * planarExtent s = icon_size * (8 / 10) := by
  refine ⟨ne_of_gt h, ?_⟩
  unfold scaleFactor
  exact div_mul_cancel₀ _ (ne_of_gt h)

/-- Witness scene for C9 with planar extent 1. -/
def c9S : Scene := [(⟨[⟨0, 0, 0⟩, ⟨1, 0, 0⟩], []⟩, 0)]

/-- Witness: C9 applied to a concrete two-vertex scene. -/
theorem c9_scale_well_defined_witness :
    0 < planarExtent c9S ∧
    (planarExtent c9S ≠ 0 ∧
     scaleFactor 1024 c9S * planarExtent c9S = 1024 * (8 / 10)) := by
  have h : 0 < planarExtent c9S := by
    norm_num [planarExtent, compute_bounds, sceneVertices, listMin, listMax, c9S]
  exact ⟨h, c9_scale_well_defined c9S 1024 h⟩

/-- C2: a face whose un-normalized normal has negative Z emits no polygon: it
renders to none, and the mesh output is exactly that of the remaining faces. -/
theorem c2_backface_cull (icon_size : ℚ) (layer : ℤ) (m : Mesh) (f : ℕ × ℕ × ℕ)
    (h : (faceNormal m f).z < 0) :
    renderFace icon_size layer m f = none ∧
    ∀ pre post, m.faces = pre ++ f :: post →
      renderMesh icon_size (m, layer) =
        pre.filterMap (renderFace icon_size layer m) ++
        post.filterMap (renderFace icon_size layer m) := by
  have hn := renderFace_of_neg icon_size layer m f h
  refine ⟨hn, ?_⟩
  intro pre post hfaces
  unfold renderMesh
  simp [hfaces, List.filterMap_append, List.filterMap_cons, hn]

/-- Witness mesh for C2: a single triangle facing away from the viewer. -/
def c2M : Mesh := ⟨[⟨0, 0, 0⟩, ⟨0, 1, 0⟩, ⟨1, 0, 0⟩], [(0, 1, 2)]⟩

/-- Witness: C2 applied to the concrete downward-facing triangle. -/
theorem c2_backface_cull_witness :
    (faceNormal c2M (0, 1, 2)).z < 0 ∧
    (renderFace 1024 4 c2M (0, 1, 2) = none ∧
     ∀ pre post, c2M.faces = pre ++ (0, 1, 2) :: post →
       renderMesh 1024 (c2M, 4) =
         pre.filterMap (renderFace 1024 4 c2M) ++
         post.filterMap (renderFace 1024 4 c2M)) := by
  have h : (faceNormal c2M (0, 1, 2)).z < 0 := by
    norm_num [faceNormal, c2M, vertexAt, Vec3.cross, Vec3.sub, List.getD]
  exact ⟨h, c2_backface_cull 1024 4 c2M (0, 1, 2) h⟩

/-- C6: the fill color is a pure function of layer and intensity that matches
the spec formula channelwise, and the golden value at layer 11, intensity 1
is pure white. -/
theorem c6_color_deterministic :
    (∀ layer intensity, face_color layer intensity = specFaceColor layer intensity) ∧
    face_color 11 1 = (255, 255, 255) := by
  constructor
  · intro layer intensity
    unfold face_color specFaceColor base_color clip255
    refine Prod.ext ?_ (Prod.ext ?_ ?_) <;> simp <;> omega
  · have hb : base_color 11 = (255, 255, 255) := by
      norm_num [base_color, ratTrunc]
    unfold face_color
    rw [hb]
    norm_num [realTrunc, clip255]

/-- The squared norm is the sum of squares. -/
theorem norm3_sq (v : Vec3R) : norm3 v ^ 2 = v.x ^ 2 + v.y ^ 2 + v.z ^ 2 := by
  unfold norm3
  exact Real.sq_sqrt (by positivity)

/-- The norm is nonnegative. -/
theorem norm3_nonneg (v : Vec3R) : 0 ≤ norm3 v := Real.sqrt_nonneg _

/-- Cauchy-Schwarz for the 3D dot product. -/
theorem dot3_le (a b : Vec3R) : dot3 a b ≤ norm3 a * norm3 b := by
  have h1 := norm3_sq a
  have h2 := norm3_sq b
  have hcs : dot3 a b ^ 2 ≤ (norm3 a * norm3 b) ^ 2 := by
    unfold dot3
    nlinarith [sq_nonneg (a.x * b.y - a.y * b.x), sq_nonneg (a.x * b.z - a.z * b.x),
               sq_nonneg (a.y * b.z - a.z * b.y)]
  nlinarith [mul_nonneg (norm3_nonneg a) (norm3_nonneg b), hcs]

/-- Unfolding equation for compute_lighting. -/
theorem compute_lighting_eq (n l : Vec3R) :
    compute_lighting n l =
      max 0 (dot3 (n.divC (norm3 n + lightingEps)) (l.divC (norm3 l + lightingEps)))
        * (7 / 10) + 3 / 10 := rfl

/-- C4: for nonzero normal and light vectors the lighting intensity lies in
the closed interval from 0.3 to 1. -/
theorem c4_lighting_bounds (n l : Vec3R)
    (hn : n ≠ ⟨0, 0, 0⟩) (hl : l ≠ ⟨0, 0, 0⟩) :
    3 / 10 ≤ compute_lighting n l ∧ compute_lighting n l ≤ 1 := by
  have heps : (0 : ℝ) < lightingEps := by norm_num [lightingEps]
  have ha : 0 < norm3 n + lightingEps := by nlinarith [norm3_nonneg n]
  have hb : 0 < norm3 l + lightingEps := by nlinarith [norm3_nonneg l]
  rw [compute_lighting_eq]
  constructor
  · nlinarith [le_max_left 0 (dot3 (n.divC (norm3 n + lightingEps))
      (l.divC (norm3 l + lightingEps)))]
  · have hDval : dot3 (n.divC (norm3 n + lightingEps)) (l.divC (norm3 l + lightingEps)) =
        dot3 n l / ((norm3 n + lightingEps) * (norm3 l + lightingEps)) := by
      unfold dot3 Vec3R.divC
      field_simp
    have h1 : dot3 n l ≤ (norm3 n + lightingEps) * (norm3 l + lightingEps) := by
      nlinarith [dot3_le n l, norm3_nonneg n, norm3_nonneg l,
                 mul_nonneg (le_of_lt heps) (norm3_nonneg l),
                 mul_nonneg (le_of_lt heps) (norm3_nonneg n), mul_pos heps heps]
    have hD1 : dot3 (n.divC (norm3 n + lightingEps)) (l.divC (norm3 l + lightingEps)) ≤ 1 := by
      rw [hDval, div_le_one (by positivity)]
      exact h1
    have hmax : max 0 (dot3 (n.divC (norm3 n + lightingEps))
        (l.divC (norm3 l + lightingEps))) ≤ 1 := max_le (by norm_num) hD1
    nlinarith [hmax]

/-- Witness: C4 applied to the unit Z vector on both sides. -/
theorem c4_lighting_bounds_witness :
    ((⟨0, 0, 1⟩ : Vec3R) ≠ ⟨0, 0, 0⟩) ∧
    (3 / 10 ≤ compute_lighting ⟨0, 0, 1⟩ ⟨0, 0, 1⟩ ∧
     compute_lighting ⟨0, 0, 1⟩ ⟨0, 0, 1⟩ ≤ 1) :=
  ⟨by simp, c4_lighting_bounds _ _ (by simp) (by simp)⟩

/-- Products of these 3x3 matrices act on vectors by composition. -/
theorem mulVec_mulMat (m n : Mat3) (v : Vec3R) :
    mulVec (mulMat m n) v = mulVec m (mulVec n v) := by
  simp only [mulVec, mulMat, dot3, Mat3.c0, Mat3.c1, Mat3.c2, Vec3R.mk.injEq]
  refine ⟨by ring, by ring, by ring⟩

/-- C5 counterexample: at 90 and 90 degrees the combined rotation applied by
transform_meshes is not the composition Y after X claimed by the spec; the
code applies Y first and then X. -/
theorem c5_counterexample :
    transform_meshes 90 90 [([⟨0, 0, 1⟩], 0)] =
      [([mulVec (combinedRot 90 90) ⟨0, 0, 1⟩], 0)] ∧
    mulVec (combinedRot 90 90) ⟨0, 0, 1⟩ ≠
      mulVec (rotY (radians 90)) (mulVec (rotX (radians 90)) ⟨0, 0, 1⟩) := by
  have h90 : radians 90 = Real.pi / 2 := by unfold radians; ring
  refine ⟨rfl, ?_⟩
  simp only [combinedRot, h90, rotX, rotY, mulMat, mulVec, dot3, Mat3.c0, Mat3.c1, Mat3.c2,
    Real.cos_pi_div_two, Real.sin_pi_div_two, ne_eq, Vec3R.mk.injEq, not_and]
  norm_num

/-- C5 amended: transform_meshes applies to every vertex the single rotation
rx @ ry, which acts as the X rotation composed after the Y rotation. -/
theorem c5_combined_rotation (tilt_forward tilt_left : ℝ) (s : SceneR) :
    transform_meshes tilt_forward tilt_left s =
      s.map fun ml =>
        (ml.1.map fun v =>
          mulVec (rotX (radians tilt_forward)) (mulVec (rotY (radians tilt_left)) v),
         ml.2) := by
  unfold transform_meshes combinedRot
  simp [mulVec_mulMat]

/-- First mesh for the C7 counterexample: one front-facing triangle at mean Z 0. -/
def c7A : Mesh := ⟨[⟨0, 0, 0⟩, ⟨1, 0, 0⟩, ⟨0, 1, 0⟩], [(0, 1, 2)]⟩

/-- Second mesh for the C7 counterexample: front-facing, also at mean Z 0. -/
def c7B : Mesh := ⟨[⟨0, 0, -1⟩, ⟨1, 0, 1⟩, ⟨0, 1, 0⟩], [(0, 1, 2)]⟩

/-- C7 counterexample: two meshes with equal mean Z are emitted in scene order
whichever way their layer numbers compare, so the layer number is not a depth
tie-break. Both meshes emit exactly one polygon each. -/
theorem c7_counterexample :
    meanZ c7A = meanZ c7B ∧ (3 : ℤ) < 5 ∧
    sortedMeshes [(c7A, 5), (c7B, 3)] = [(c7A, 5), (c7B, 3)] ∧
    sortedMeshes [(c7A, 3), (c7B, 5)] = [(c7A, 3), (c7B, 5)] ∧
    generate_svg 100 [(c7A, 5), (c7B, 3)] =
      renderMesh 100 (c7A, 5) ++ renderMesh 100 (c7B, 3) ∧
    (renderMesh 100 (c7A, 5)).length = 1 ∧
    (renderMesh 100 (c7B, 3)).length = 1 := by
  have hz : meanZ c7A = meanZ c7B := by norm_num [meanZ, c7A, c7B]
  have hd1 : depthLE (c7A, 5) (c7B, 3) = true := by
    simp only [depthLE, decide_eq_true_eq]
    exact le_of_eq hz
  have hd2 : depthLE (c7A, 3) (c7B, 5) = true := by
    simp only [depthLE, decide_eq_true_eq]
    exact le_of_eq hz
  have h1 : sortedMeshes [(c7A, 5), (c7B, 3)] = [(c7A, 5), (c7B, 3)] := by
    unfold sortedMeshes
    exact List.mergeSort_of_sorted (List.pairwise_pair.mpr hd1)
  have h2 : sortedMeshes [(c7A, 3), (c7B, 5)] = [(c7A, 3), (c7B, 5)] := by
    unfold sortedMeshes
    exact List.mergeSort_of_sorted (List.pairwise_pair.mpr hd2)
  have hfA : ¬ (faceNormal c7A (0, 1, 2)).z < 0 := by
    norm_num [faceNormal, c7A, vertexAt, Vec3.cross, Vec3.sub, List.getD]
  have hfB : ¬ (faceNormal c7B (0, 1, 2)).z < 0 := by
    norm_num [faceNormal, c7B, vertexAt, Vec3.cross, Vec3.sub, List.getD]
  refine ⟨hz, by norm_num, h1, h2, ?_, ?_, ?_⟩
  · unfold generate_svg
    rw [h1]
    simp
  · obtain ⟨pA, hpA⟩ : ∃ p, renderFace 100 5 c7A (0, 1, 2) = some p := by
      unfold renderFace
      simp [hfA]
    show (List.filterMap (renderFace 100 5 c7A) [(0, 1, 2)]).length = 1
    simp [List.filterMap_cons, hpA]
  · obtain ⟨pB, hpB⟩ : ∃ p, renderFace 100 3 c7B (0, 1, 2) = some p := by
      unfold renderFace
      simp [hfB]
    show (List.filterMap (renderFace 100 3 c7B) [(0, 1, 2)]).length = 1
    simp [List.filterMap_cons, hpB]

/-- C7 amended: when two meshes tie on mean Z the emission order is the scene
insertion order, independently of the layer numbers attached to them. -/
theorem c7_tie_insertion_order (icon_size : ℚ) (A B : Mesh) (la lb : ℤ)
    (h : meanZ A = meanZ B) :
    generate_svg icon_size [(A, la), (B, lb)] =
      renderMesh icon_size (A, la) ++ renderMesh icon_size (B, lb) := by
  have hd : depthLE (A, la) (B, lb) = true := by
    simp only [depthLE, decide_eq_true_eq]
    exact le_of_eq h
  have hs : sortedMeshes [(A, la), (B, lb)] = [(A, la), (B, lb)] := by
    unfold sortedMeshes
    exact List.mergeSort_of_sorted (List.pairwise_pair.mpr hd)
  unfold generate_svg
  rw [hs]
  simp

/-- Witness: the amended C7 applied to the two concrete tied meshes. -/
theorem c7_tie_insertion_order_witness :
    meanZ c7A = meanZ c7B ∧
    generate_svg 50 [(c7A, 7), (c7B, 2)] =
      renderMesh 50 (c7A, 7) ++ renderMesh 50 (c7B, 2) := by
  have hz : meanZ c7A = meanZ c7B := by norm_num [meanZ, c7A, c7B]
  exact ⟨hz, c7_tie_insertion_order 50 c7A c7B 7 2 hz⟩

/-- C8: rendering succeeds with an empty polygon sequence whenever the scene
has no meshes or every face of every mesh is culled. -/
theorem c8_empty_render (icon_size : ℚ) (s : Scene)
    (h : ∀ p ∈ s, ∀ f ∈ p.1.faces, (faceNormal p.1 f).z < 0) :
    generate_svg icon_size s = [] := by
  unfold generate_svg sortedMeshes
  rw [List.flatMap_eq_nil_iff]
  intro ml hml
  rw [List.mem_mergeSort] at hml
  unfold renderMesh
  rw [List.filterMap_eq_nil_iff]
  intro f hf
  exact renderFace_of_neg _ _ _ _ (h ml hml f hf)

/-- Witness mesh for C8: its single face is back-facing, so it is culled. -/
def c8M : Mesh := ⟨[⟨0, 0, 0⟩, ⟨0, 1, 0⟩, ⟨1, 0, 0⟩], [(0, 1, 2)]⟩

/-- Witness: C8 applied to a one-mesh scene whose only face is culled. -/
theorem c8_empty_render_witness :
    (∀ p ∈ ([(c8M, 1)] : Scene), ∀ f ∈ p.1.faces, (faceNormal p.1 f).z < 0) ∧
    generate_svg 1024 [(c8M, 1)] = [] := by
  have h : ∀ p ∈ ([(c8M, 1)] : Scene), ∀ f ∈ p.1.faces, (faceNormal p.1 f).z < 0 := by
    intro p hp
    simp only [List.mem_singleton] at hp
    subst hp
    intro f hf
    simp only [c8M, List.mem_singleton] at hf
    subst hf
    norm_num [faceNormal, c8M, vertexAt, Vec3.cross, Vec3.sub, List.getD]
  exact ⟨h, c8_empty_render 1024 [(c8M, 1)] h⟩

/-- The depth sort output is pairwise ordered by the depth comparison. -/
theorem sortedMeshes_pairwise (s : Scene) :
    (sortedMeshes s).Pairwise (fun a b => depthLE a b = true) :=
  List.sorted_mergeSort depthLE_trans depthLE_total s

/-- blockStart advances by the length of one mesh block at each step. -/
theorem blockStart_succ (icon_size : ℚ) (s : Scene) (k : ℕ) (a : Mesh × ℤ)
    (h : (sortedMeshes s)[k]? = some a) :
    blockStart icon_size s (k + 1) =
      blockStart icon_size s k + (renderMesh icon_size a).length := by
  unfold blockStart
  rw [List.take_succ, h]
  simp [List.flatMap_append]

/-- blockStart is constant past the end of the sorted mesh list. -/
theorem blockStart_stable (icon_size : ℚ) (s : Scene) (k : ℕ)
    (h : (sortedMeshes s).length ≤ k) :
    blockStart icon_size s (k + 1) = blockStart icon_size s k := by
  unfold blockStart
  rw [List.take_of_length_le h, List.take_of_length_le (le_trans h (Nat.le_succ k))]

/-- blockStart never decreases at a step. -/
theorem blockStart_le_succ (icon_size : ℚ) (s : Scene) (k : ℕ) :
    blockStart icon_size s k ≤ blockStart icon_size s (k + 1) := by
  cases hk : (sortedMeshes s)[k]? with
  | none =>
    rw [blockStart_stable icon_size s k (List.getElem?_eq_none_iff.mp hk)]
  | some a =>
    rw [blockStart_succ icon_size s k a hk]
    exact Nat.le_add_right _ _

/-- blockStart is monotone. -/
theorem blockStart_mono (icon_size : ℚ) (s : Scene) {k l : ℕ} (h : k ≤ l) :
    blockStart icon_size s k ≤ blockStart icon_size s l := by
  induction h with
  | refl => exact le_rfl
  | step _ ih => exact le_trans ih (blockStart_le_succ icon_size s _)

/-- Splitting the output at a sorted position. -/
theorem generate_svg_split (icon_size : ℚ) (s : Scene) (k : ℕ) :
    generate_svg icon_size s =
      ((sortedMeshes s).take k).flatMap (renderMesh icon_size) ++
      ((sortedMeshes s).drop k).flatMap (renderMesh icon_size) := by
  rw [← List.flatMap_append, List.take_append_drop]
  rfl

/-- Dropping blockStart k from the output exposes the block of the k-th mesh. -/
theorem generate_svg_drop (icon_size : ℚ) (s : Scene) (k : ℕ) (a : Mesh × ℤ)
    (h : (sortedMeshes s)[k]? = some a) :
    (generate_svg icon_size s).drop (blockStart icon_size s k) =
      renderMesh icon_size a ++
        ((sortedMeshes s).drop (k + 1)).flatMap (renderMesh icon_size) := by
  obtain ⟨hk, hka⟩ := List.getElem?_eq_some_iff.mp h
  rw [generate_svg_split icon_size s k]
  unfold blockStart
  rw [List.drop_left, List.drop_eq_getElem_cons hk, hka, List.flatMap_cons]

/-- The block of the k-th sorted mesh is an exact slice of the output. -/
theorem generate_svg_block (icon_size : ℚ) (s : Scene) (k : ℕ) (a : Mesh × ℤ)
    (h : (sortedMeshes s)[k]? = some a) :
    ((generate_svg icon_size s).drop (blockStart icon_size s k)).take
        (renderMesh icon_size a).length = renderMesh icon_size a := by
  rw [generate_svg_drop icon_size s k a h]
  exact List.take_left ..

/-- C1: when the mesh at sorted position i has strictly smaller mean Z than
the mesh at sorted position j, the polygons of the first occupy the output
slice starting at blockStart i, those of the second the slice starting at
blockStart j, and the first slice ends no later than the second begins: every
polygon of the lower mesh precedes every polygon of the higher mesh. -/
theorem c1_depth_ordering (icon_size : ℚ) (s : Scene) (i j : ℕ) (a b : Mesh × ℤ)
    (ha : (sortedMeshes s)[i]? = some a) (hb : (sortedMeshes s)[j]? = some b)
    (hab : meanZ a.1 < meanZ b.1) :
    blockStart icon_size s i + (renderMesh icon_size a).length =
      blockStart icon_size s (i + 1) ∧
    blockStart icon_size s (i + 1) ≤ blockStart icon_size s j ∧
    ((generate_svg icon_size s).drop (blockStart icon_size s i)).take
        (renderMesh icon_size a).length = renderMesh icon_size a ∧
    ((generate_svg icon_size s).drop (blockStart icon_size s j)).take
        (renderMesh icon_size b).length = renderMesh icon_size b := by
  obtain ⟨hi, hia⟩ := List.getElem?_eq_some_iff.mp ha
  obtain ⟨hj, hjb⟩ := List.getElem?_eq_some_iff.mp hb
  have hij : i < j := by
    rcases Nat.lt_trichotomy i j with h | h | h
    · exact h
    · exfalso
      rw [h] at ha
      rw [ha] at hb
      have hab2 : a = b := by injection hb
      rw [hab2] at hab
      exact lt_irrefl _ hab
    · exfalso
      have hd := (List.pairwise_iff_getElem.mp (sortedMeshes_pairwise s)) j i hj hi h
      simp only [depthLE, decide_eq_true_eq] at hd
      rw [hia, hjb] at hd
      exact absurd hab (not_lt_of_le hd)
  refine ⟨(blockStart_succ icon_size s i a ha).symm, ?_,
    generate_svg_block icon_size s i a ha, generate_svg_block icon_size s j b hb⟩
  exact blockStart_mono icon_size s hij

/-- First witness mesh for C1, mean Z zero. -/
def c1MA : Mesh × ℤ := (⟨[⟨0, 0, 0⟩], []⟩, 1)

/-- Second witness mesh for C1, mean Z one. -/
def c1MB : Mesh × ℤ := (⟨[⟨0, 0, 1⟩], []⟩, 2)

/-- Witness scene for C1. -/
def c1S : Scene := [c1MA, c1MB]

/-- Witness: C1 applied to a concrete two-mesh scene at distinct depths. -/
theorem c1_depth_ordering_witness :
    (sortedMeshes c1S)[0]? = some c1MA ∧ (sortedMeshes c1S)[1]? = some c1MB ∧
    meanZ c1MA.1 < meanZ c1MB.1 ∧
    (blockStart 100 c1S 0 + (renderMesh 100 c1MA).length = blockStart 100 c1S (0 + 1) ∧
     blockStart 100 c1S (0 + 1) ≤ blockStart 100 c1S 1 ∧
     ((generate_svg 100 c1S).drop (blockStart 100 c1S 0)).take
         (renderMesh 100 c1MA).length = renderMesh 100 c1MA ∧
     ((generate_svg 100 c1S).drop (blockStart 100 c1S 1)).take
         (renderMesh 100 c1MB).length = renderMesh 100 c1MB) := by
  have hz : meanZ c1MA.1 < meanZ c1MB.1 := by norm_num [meanZ, c1MA, c1MB]
  have hd : depthLE c1MA c1MB = true := by
    simp only [depthLE, decide_eq_true_eq]
    exact le_of_lt hz
  have hs : sortedMeshes c1S = c1S := by
    unfold sortedMeshes
    exact List.mergeSort_of_sorted (List.pairwise_pair.mpr hd)
  have ha : (sortedMeshes c1S)[0]? = some c1MA := by rw [hs]; rfl
  have hb : (sortedMeshes c1S)[1]? = some c1MB := by rw [hs]; rfl
  exact ⟨ha, hb, hz, c1_depth_ordering 100 c1S 0 1 c1MA c1MB ha hb hz⟩

/-- Two positions of a list at increasing indices form a sublist. -/
theorem pair_sublist_of_getElem {α : Type} {l : List α} {i j : ℕ} {a b : α}
    (ha : l[i]? = some a) (hb : l[j]? = some b) (hij : i < j) :
    List.Sublist [a, b] l := by
  induction l generalizing i j with
  | nil => simp at ha
  | cons x t ih =>
    cases i with
    | zero =>
      have hxa : x = a := by
        rw [List.getElem?_cons_zero] at ha
        injection ha
      cases j with
      | zero => omega
      | succ j2 =>
        rw [List.getElem?_cons_succ] at hb
        have hbt : b ∈ t := by
          obtain ⟨hj2, hget⟩ := List.getElem?_eq_some_iff.mp hb
          rw [← hget]
          exact List.getElem_mem hj2
        rw [← hxa]
        exact List.Sublist.cons₂ x (List.singleton_sublist.mpr hbt)
    | succ i2 =>
      cases j with
      | zero => omega
      | succ j2 =>
        rw [List.getElem?_cons_succ] at ha hb
        exact (ih ha hb (by omega)).cons x

/-- A two-element sublist occurs at a pair of increasing positions. -/
theorem sublist_pair_getElem {α : Type} {x y : α} :
    ∀ {l : List α}, List.Sublist [x, y] l →
      ∃ p q : ℕ, p < q ∧ l[p]? = some x ∧ l[q]? = some y := by
  intro l h
  induction l with
  | nil => exact absurd (List.sublist_nil.mp h) (by simp)
  | cons hd tl ih =>
    cases h with
    | cons _ h2 =>
      obtain ⟨p, q, hpq, hp, hq⟩ := ih h2
      exact ⟨p + 1, q + 1, by omega, by simpa using hp, by simpa using hq⟩
    | cons₂ _ h2 =>
      have hy : y ∈ tl := List.singleton_sublist.mp h2
      obtain ⟨q, hq⟩ := List.getElem?_of_mem hy
      exact ⟨0, q + 1, Nat.succ_pos q, by simp, by simpa using hq⟩

/-- Dropping the tags from the tagged sort gives the depth sort itself. -/
theorem sortedTagged_map_snd (s : Scene) :
    (sortedTagged s).map Prod.snd = sortedMeshes s := by
  unfold sortedTagged sortedMeshes
  have hmap := @List.map_mergeSort (ℕ × (Mesh × ℤ)) (Mesh × ℤ)
    (fun a b => depthLE a.2 b.2) depthLE Prod.snd s.enum (fun a _ b _ => rfl)
  rw [hmap, List.enum_map_snd]

/-- C10: meshes that tie on mean Z keep their scene insertion order through
the depth sort: the tagged sort lists the earlier mesh before the later one,
and dropping tags recovers the sort that generate_svg emits from. -/
theorem c10_stable_sort (s : Scene) (i j : ℕ) (a b : Mesh × ℤ)
    (ha : s[i]? = some a) (hb : s[j]? = some b) (hij : i < j)
    (hz : meanZ a.1 = meanZ b.1) :
    (sortedTagged s).map Prod.snd = sortedMeshes s ∧
    ∃ p q : ℕ, p < q ∧ (sortedTagged s)[p]? = some (i, a) ∧
      (sortedTagged s)[q]? = some (j, b) := by
  refine ⟨sortedTagged_map_snd s, ?_⟩
  have hae : s.enum[i]? = some (i, a) := by
    rw [List.getElem?_enum, ha]
    rfl
  have hbe : s.enum[j]? = some (j, b) := by
    rw [List.getElem?_enum, hb]
    rfl
  have hsub : List.Sublist [(i, a), (j, b)] s.enum := pair_sublist_of_getElem hae hbe hij
  have hle : depthLE (i, a).2 (j, b).2 = true := by
    simp only [depthLE, decide_eq_true_eq]
    exact le_of_eq hz
  have hsorted : List.Sublist [(i, a), (j, b)] (sortedTagged s) := by
    unfold sortedTagged
    exact List.pair_sublist_mergeSort
      (fun u v w huv hvw => depthLE_trans u.2 v.2 w.2 huv hvw)
      (fun u v => depthLE_total u.2 v.2) hle hsub
  exact sublist_pair_getElem hsorted

/-- First witness mesh for C10. -/
def c10A : Mesh × ℤ := (⟨[⟨0, 0, 2⟩], []⟩, 4)

/-- Second witness mesh for C10, same mean Z, different layer. -/
def c10B : Mesh × ℤ := (⟨[⟨5, 5, 2⟩], []⟩, 9)

/-- Witness: C10 applied to a concrete scene with a mean Z tie. -/
theorem c10_stable_sort_witness :
    ([c10A, c10B] : Scene)[0]? = some c10A ∧
    ([c10A, c10B] : Scene)[1]? = some c10B ∧
    (0 : ℕ) < 1 ∧ meanZ c10A.1 = meanZ c10B.1 ∧
    ((sortedTagged [c10A, c10B]).map Prod.snd = sortedMeshes [c10A, c10B] ∧
     ∃ p q : ℕ, p < q ∧ (sortedTagged [c10A, c10B])[p]? = some (0, c10A) ∧
       (sortedTagged [c10A, c10B])[q]? = some (1, c10B)) := by
  have hz : meanZ c10A.1 = meanZ c10B.1 := by norm_num [meanZ, c10A, c10B]
  exact ⟨rfl, rfl, by norm_num, hz,
    c10_stable_sort [c10A, c10B] 0 1 c10A c10B rfl rfl (by norm_num) hz⟩

/-- compute_bounds of a nonempty scene is the componentwise min and max. -/
theorem compute_bounds_eq (s : Scene) (hs : s.isEmpty = false) :
    compute_bounds s =
      (⟨listMin ((sceneVertices s).map Vec3.x), listMin ((sceneVertices s).map Vec3.y),
        listMin ((sceneVertices s).map Vec3.z)⟩,
       ⟨listMax ((sceneVertices s).map Vec3.x), listMax ((sceneVertices s).map Vec3.y),
        listMax ((sceneVertices s).map Vec3.z)⟩) := by
  unfold compute_bounds
  rw [hs]
  rfl

/-- Lower X bound of a nonempty scene. -/
theorem bounds_minx (s : Scene) (hs : s.isEmpty = false) :
    (compute_bounds s).1.x = listMin ((sceneVertices s).map Vec3.x) := by
  rw [compute_bounds_eq s hs]

/-- Upper X bound of a nonempty scene. -/
theorem bounds_maxx (s : Scene) (hs : s.isEmpty = false) :
    (compute_bounds s).2.x = listMax ((sceneVertices s).map Vec3.x) := by
  rw [compute_bounds_eq s hs]

/-- Lower Y bound of a nonempty scene. -/
theorem bounds_miny (s : Scene) (hs : s.isEmpty = false) :
    (compute_bounds s).1.y = listMin ((sceneVertices s).map Vec3.y) := by
  rw [compute_bounds_eq s hs]

/-- Upper Y bound of a nonempty scene. -/
theorem bounds_maxy (s : Scene) (hs : s.isEmpty = false) :
    (compute_bounds s).2.y = listMax ((sceneVertices s).map Vec3.y) := by
  rw [compute_bounds_eq s hs]

/-- Lower Z bound of a nonempty scene. -/
theorem bounds_minz (s : Scene) (hs : s.isEmpty = false) :
    (compute_bounds s).1.z = listMin ((sceneVertices s).map Vec3.z) := by
  rw [compute_bounds_eq s hs]

/-- Upper Z bound of a nonempty scene. -/
theorem bounds_maxz (s : Scene) (hs : s.isEmpty = false) :
    (compute_bounds s).2.z = listMax ((sceneVertices s).map Vec3.z) := by
  rw [compute_bounds_eq s hs]

/-- The planar extent written out through compute_bounds. -/
theorem planarExtent_eq (s : Scene) :
    planarExtent s =
      max ((compute_bounds s).2.x - (compute_bounds s).1.x)
        ((compute_bounds s).2.y - (compute_bounds s).1.y) := rfl

/-- Folding min commutes with an affine map of nonnegative slope. -/
theorem foldl_min_affine (c d : ℚ) (hc : 0 ≤ c) (l : List ℚ) :
    ∀ a : ℚ, ((l.map fun q => q * c + d).foldl min (a * c + d)) =
      l.foldl min a * c + d := by
  induction l with
  | nil => intro a; simp
  | cons q t ih =>
    intro a
    simp only [List.map_cons, List.foldl_cons]
    rw [← ih (min a q)]
    congr 1
    rw [min_add_add_right, min_mul_of_nonneg a q hc]

/-- Folding max commutes with an affine map of nonnegative slope. -/
theorem foldl_max_affine (c d : ℚ) (hc : 0 ≤ c) (l : List ℚ) :
    ∀ a : ℚ, ((l.map fun q => q * c + d).foldl max (a * c + d)) =
      l.foldl max a * c + d := by
  induction l with
  | nil => intro a; simp
  | cons q t ih =>
    intro a
    simp only [List.map_cons, List.foldl_cons]
    rw [← ih (max a q)]
    congr 1
    rw [max_add_add_right, max_mul_of_nonneg a q hc]

/-- listMin commutes with an affine map of nonnegative slope on nonempty lists. -/
theorem listMin_affine (c d : ℚ) (hc : 0 ≤ c) (l : List ℚ) (hl : l ≠ []) :
    listMin (l.map fun q => q * c + d) = listMin l * c + d := by
  cases l with
  | nil => exact absurd rfl hl
  | cons q t =>
    simp only [List.map_cons, listMin]
    exact foldl_min_affine c d hc t q

/-- listMax commutes with an affine map of nonnegative slope on nonempty lists. -/
theorem listMax_affine (c d : ℚ) (hc : 0 ≤ c) (l : List ℚ) (hl : l ≠ []) :
    listMax (l.map fun q => q * c + d) = listMax l * c + d := by
  cases l with
  | nil => exact absurd rfl hl
  | cons q t =>
    simp only [List.map_cons, listMax]
    exact foldl_max_affine c d hc t q

/-- Mapping every vertex of every mesh maps the concatenated vertex list. -/
theorem sceneVertices_map (s : Scene) (g : Vec3 → Vec3) :
    sceneVertices (s.map fun ml => (⟨ml.1.vertices.map g, ml.1.faces⟩, ml.2)) =
      (sceneVertices s).map g := by
  unfold sceneVertices
  induction s with
  | nil => simp
  | cons hd tl ih => simp_all [List.map_cons, List.flatMap_cons, List.map_append]

/-- normalize_meshes written out as one vertex map over the scene. -/
theorem normalize_meshes_eq (icon_size : ℚ) (s : Scene) :
    normalize_meshes icon_size s =
      s.map fun ml =>
        (⟨ml.1.vertices.map fun v =>
            ⟨(v.x - ((compute_bounds s).1.x + (compute_bounds s).2.x) / 2) *
                scaleFactor icon_size s + icon_size / 2,
             (v.y - ((compute_bounds s).1.y + (compute_bounds s).2.y) / 2) *
                scaleFactor icon_size s + icon_size / 2,
             (v.z - ((compute_bounds s).1.z + (compute_bounds s).2.z) / 2) *
                scaleFactor icon_size s⟩,
          ml.1.faces⟩, ml.2) := rfl

/-- C3 (amended to nonnegative icon sizes): after normalize_meshes the planar
bounding box has longer side icon_size * 0.8, is centered at the canvas
center in X and Y, and is centered at the origin in Z. -/
theorem c3_normalize (icon_size : ℚ) (s : Scene)
    (hne : sceneVertices s ≠ []) (hpe : 0 < planarExtent s) (hsz : 0 ≤ icon_size) :
    planarExtent (normalize_meshes icon_size s) = icon_size * (8 / 10) ∧
    ((compute_bounds (normalize_meshes icon_size s)).1.x +
        (compute_bounds (normalize_meshes icon_size s)).2.x) / 2 = icon_size / 2 ∧
    ((compute_bounds (normalize_meshes icon_size s)).1.y +
        (compute_bounds (normalize_meshes icon_size s)).2.y) / 2 = icon_size / 2 ∧
    ((compute_bounds (normalize_meshes icon_size s)).1.z +
        (compute_bounds (normalize_meshes icon_size s)).2.z) / 2 = 0 := by
  have hs : s ≠ [] := by
    intro h
    apply hne
    rw [h]
    rfl
  have hsE : s.isEmpty = false := by
    cases s with
    | nil => exact absurd rfl hs
    | cons a t => rfl
  have hsE2 : (normalize_meshes icon_size s).isEmpty = false := by
    rw [normalize_meshes_eq]
    cases s with
    | nil => exact absurd rfl hs
    | cons a t => rfl
  have hsc : 0 ≤ scaleFactor icon_size s :=
    div_nonneg (mul_nonneg hsz (by norm_num)) (le_of_lt hpe)
  have hgv : sceneVertices (normalize_meshes icon_size s) =
      (sceneVertices s).map fun v =>
        (⟨(v.x - ((compute_bounds s).1.x + (compute_bounds s).2.x) / 2) *
             scaleFactor icon_size s + icon_size / 2,
          (v.y - ((compute_bounds s).1.y + (compute_bounds s).2.y) / 2) *
             scaleFactor icon_size s + icon_size / 2,
          (v.z - ((compute_bounds s).1.z + (compute_bounds s).2.z) / 2) *
             scaleFactor icon_size s⟩ : Vec3) := by
    rw [normalize_meshes_eq]
    exact sceneVertices_map s _
  have hnex : (sceneVertices s).map Vec3.x ≠ [] := by
    intro h
    exact hne (List.map_eq_nil_iff.mp h)
  have hney : (sceneVertices s).map Vec3.y ≠ [] := by
    intro h
    exact hne (List.map_eq_nil_iff.mp h)
  have hnez : (sceneVertices s).map Vec3.z ≠ [] := by
    intro h
    exact hne (List.map_eq_nil_iff.mp h)
  have hxlist : (sceneVertices (normalize_meshes icon_size s)).map Vec3.x =
      ((sceneVertices s).map Vec3.x).map
        (fun q => q * scaleFactor icon_size s +
          (icon_size / 2 - ((compute_bounds s).1.x + (compute_bounds s).2.x) / 2 *
            scaleFactor icon_size s)) := by
    rw [hgv, List.map_map, List.map_map]
    have hfun : (Vec3.x ∘ fun v : Vec3 =>
        (⟨(v.x - ((compute_bounds s).1.x + (compute_bounds s).2.x) / 2) *
             scaleFactor icon_size s + icon_size / 2,
          (v.y - ((compute_bounds s).1.y + (compute_bounds s).2.y) / 2) *
             scaleFactor icon_size s + icon_size / 2,
          (v.z - ((compute_bounds s).1.z + (compute_bounds s).2.z) / 2) *
             scaleFactor icon_size s⟩ : Vec3)) =
        ((fun q => q * scaleFactor icon_size s +
          (icon_size / 2 - ((compute_bounds s).1.x + (compute_bounds s).2.x) / 2 *
            scaleFactor icon_size s)) ∘ Vec3.x) := by
      funext v
      show (v.x - ((compute_bounds s).1.x + (compute_bounds s).2.x) / 2) *
          scaleFactor icon_size s + icon_size / 2 = _
      simp only [Function.comp_apply]
      ring
    rw [hfun]
  have hylist : (sceneVertices (normalize_meshes icon_size s)).map Vec3.y =
      ((sceneVertices s).map Vec3.y).map
        (fun q => q * scaleFactor icon_size s +
          (icon_size / 2 - ((compute_bounds s).1.y + (compute_bounds s).2.y) / 2 *
            scaleFactor icon_size s)) := by
    rw [hgv, List.map_map, List.map_map]
    have hfun : (Vec3.y ∘ fun v : Vec3 =>
        (⟨(v.x - ((compute_bounds s).1.x + (compute_bounds s).2.x) / 2) *
             scaleFactor icon_size s + icon_size / 2,
          (v.y - ((compute_bounds s).1.y + (compute_bounds s).2.y) / 2) *
             scaleFactor icon_size s + icon_size / 2,
          (v.z - ((compute_bounds s).1.z + (compute_bounds s).2.z) / 2) *
             scaleFactor icon_size s⟩ : Vec3)) =
        ((fun q => q * scaleFactor icon_size s +
          (icon_size / 2 - ((compute_bounds s).1.y + (compute_bounds s).2.y) / 2 *
            scaleFactor icon_size s)) ∘ Vec3.y) := by
      funext v
      show (v.y - ((compute_bounds s).1.y + (compute_bounds s).2.y) / 2) *
          scaleFactor icon_size s + icon_size / 2 = _
      simp only [Function.comp_apply]
      ring
    rw [hfun]
  have hzlist : (sceneVertices (normalize_meshes icon_size s)).map Vec3.z =
      ((sceneVertices s).map Vec3.z).map
        (fun q => q * scaleFactor icon_size s +
          (0 - ((compute_bounds s).1.z + (compute_bounds s).2.z) / 2 *
            scaleFactor icon_size s)) := by
    rw [hgv, List.map_map, List.map_map]
    have hfun : (Vec3.z ∘ fun v : Vec3 =>
        (⟨(v.x - ((compute_bounds s).1.x + (compute_bounds s).2.x) / 2) *
             scaleFactor icon_size s + icon_size / 2,
          (v.y - ((compute_bounds s).1.y + (compute_bounds s).2.y) / 2) *
             scaleFactor icon_size s + icon_size / 2,
          (v.z - ((compute_bounds s).1.z + (compute_bounds s).2.z) / 2) *
             scaleFactor icon_size s⟩ : Vec3)) =
        ((fun q => q * scaleFactor icon_size s +
          (0 - ((compute_bounds s).1.z + (compute_bounds s).2.z) / 2 *
            scaleFactor icon_size s)) ∘ Vec3.z) := by
      funext v
      show (v.z - ((compute_bounds s).1.z + (compute_bounds s).2.z) / 2) *
          scaleFactor icon_size s = _
      simp only [Function.comp_apply]
      ring
    rw [hfun]
  have hminx := bounds_minx (normalize_meshes icon_size s) hsE2
  have hmaxx := bounds_maxx (normalize_meshes icon_size s) hsE2
  have hminy := bounds_miny (normalize_meshes icon_size s) hsE2
  have hmaxy := bounds_maxy (normalize_meshes icon_size s) hsE2
  have hminz := bounds_minz (normalize_meshes icon_size s) hsE2
  have hmaxz := bounds_maxz (normalize_meshes icon_size s) hsE2
  rw [hxlist] at hminx hmaxx
  rw [hylist] at hminy hmaxy
  rw [hzlist] at hminz hmaxz
  rw [listMin_affine _ _ hsc _ hnex] at hminx
  rw [listMax_affine _ _ hsc _ hnex] at hmaxx
  rw [listMin_affine _ _ hsc _ hney] at hminy
  rw [listMax_affine _ _ hsc _ hney] at hmaxy
  rw [listMin_affine _ _ hsc _ hnez] at hminz
  rw [listMax_affine _ _ hsc _ hnez] at hmaxz
  have hpe2 : planarExtent s =
      max (listMax ((sceneVertices s).map Vec3.x) - listMin ((sceneVertices s).map Vec3.x))
        (listMax ((sceneVertices s).map Vec3.y) - listMin ((sceneVertices s).map Vec3.y)) := by
    rw [planarExtent_eq, bounds_minx s hsE, bounds_maxx s hsE, bounds_miny s hsE,
      bounds_maxy s hsE]
  refine ⟨?_, ?_, ?_, ?_⟩
  · rw [planarExtent_eq, hminx, hmaxx, hminy, hmaxy]
    have ex : listMax ((sceneVertices s).map Vec3.x) * scaleFactor icon_size s +
          (icon_size / 2 - ((compute_bounds s).1.x + (compute_bounds s).2.x) / 2 *
            scaleFactor icon_size s) -
        (listMin ((sceneVertices s).map Vec3.x) * scaleFactor icon_size s +
          (icon_size / 2 - ((compute_bounds s).1.x + (compute_bounds s).2.x) / 2 *
            scaleFactor icon_size s)) =
        (listMax ((sceneVertices s).map Vec3.x) - listMin ((sceneVertices s).map Vec3.x)) *
          scaleFactor icon_size s := by ring
    have ey : listMax ((sceneVertices s).map Vec3.y) * scaleFactor icon_size s +
          (icon_size / 2 - ((compute_bounds s).1.y + (compute_bounds s).2.y) / 2 *
            scaleFactor icon_size s) -
        (listMin ((sceneVertices s).map Vec3.y) * scaleFactor icon_size s +
          (icon_size / 2 - ((compute_bounds s).1.y + (compute_bounds s).2.y) / 2 *
            scaleFactor icon_size s)) =
        (listMax ((sceneVertices s).map Vec3.y) - listMin ((sceneVertices s).map Vec3.y)) *
          scaleFactor icon_size s := by ring
    rw [ex, ey, ← max_mul_of_nonneg _ _ hsc, ← hpe2]
    unfold scaleFactor
    rw [mul_comm, div_mul_cancel₀ _ (ne_of_gt hpe)]
  · rw [hminx, hmaxx, bounds_minx s hsE, bounds_maxx s hsE]
    ring
  · rw [hminy, hmaxy, bounds_miny s hsE, bounds_maxy s hsE]
    ring
  · rw [hminz, hmaxz, bounds_minz s hsE, bounds_maxz s hsE]
    ring

/-- Counterexample scene for C3: two vertices with planar extent 1. -/
def c3S : Scene := [(⟨[⟨0, 0, 0⟩, ⟨1, 1, 0⟩], []⟩, 0)]

/-- C3 as stated fails for a negative icon_size: the scale flips sign and the
longer planar side of the normalized scene is 8/5, not (-2) * 0.8 = -8/5. -/
theorem c3_counterexample :
    0 < planarExtent c3S ∧
    planarExtent (normalize_meshes (-2) c3S) ≠ (-2 : ℚ) * (8 / 10) := by
  constructor
  · norm_num [planarExtent, compute_bounds, sceneVertices, listMin, listMax, c3S]
  · norm_num [planarExtent, compute_bounds, sceneVertices, listMin, listMax, c3S,
      normalize_meshes, scaleFactor]

/-- Witness scene for the amended C3. -/
def c3W : Scene := [(⟨[⟨0, 0, 0⟩, ⟨2, 1, 3⟩], []⟩, 0)]

/-- Witness: the amended C3 applied to a concrete scene at icon size 100. -/
theorem c3_normalize_witness :
    sceneVertices c3W ≠ [] ∧ 0 < planarExtent c3W ∧ (0 : ℚ) ≤ 100 ∧
    (planarExtent (normalize_meshes 100 c3W) = 100 * (8 / 10) ∧
     ((compute_bounds (normalize_meshes 100 c3W)).1.x +
         (compute_bounds (normalize_meshes 100 c3W)).2.x) / 2 = 100 / 2 ∧
     ((compute_bounds (normalize_meshes 100 c3W)).1.y +
         (compute_bounds (normalize_meshes 100 c3W)).2.y) / 2 = 100 / 2 ∧
     ((compute_bounds (normalize_meshes 100 c3W)).1.z +
         (compute_bounds (normalize_meshes 100 c3W)).2.z) / 2 = 0) := by
  have h1 : sceneVertices c3W ≠ [] := by simp [sceneVertices, c3W]
  have h2 : 0 < planarExtent c3W := by
    norm_num [planarExtent, compute_bounds, sceneVertices, listMin, listMax, c3W]
  exact ⟨h1, h2, by norm_num, c3_normalize 100 c3W h1 h2 (by norm_num)⟩

end TopoGen
